import Mathlib

/-!
Verification of the core of qmulholland/NBA-True-Percentage (src/app.py):
the win-probability estimator `simulate_game_win_fast` and the shot
aggregation pipeline of `get_processed_player_data` together with the
summary reductions (`raw_avg`, `pressure_avg`, `clutch_pct`, `final_chart`).

Modelling conventions:
* A raw database / pandas cell is a `PyCell`: either a SQL NULL read as
  Python `None` (whose `str()` form is `"None"`), a pandas `NaN`
  (whose `str()` form is `"nan"`), or a string.
* Python string primitives are embedded on character lists:
  `pyInt` is `int(s)` (optional whitespace, optional sign, digits),
  `pyUpper` is `s.upper()` (ASCII case mapping), `containsSub` is the
  substring test `sub in s`, and `splitChar` is `s.split(sep)` for a
  one-character separator.
* Exceptions caught by the `try`/`except: continue` of the per-row loop
  are modelled with `Option`: `none` means the row raised and was skipped.
* The numpy random source of `simulate_game_win_fast` is an abstract
  entropy stream `RNG`: `stream k` is the k-th Poisson(1.08) variate the
  generator would produce, and `pos` counts how many have been consumed.
  The Monte-Carlo branch reads `2 * trials * possessions` variates
  (matching the two `np.random.poisson(1.08, (trials, possessions))`
  calls); the buzzer branch reads none.
* Probabilities and means are exact rationals (`np.mean` of a boolean
  array is `count / trials`); the irrational per-shot weight
  `sqrt(leverage) + 0.05` lives in `ℝ`.  The float literals 0.15 and
  0.05 are idealised to the exact rationals 3/20 and 1/20.
* A pandas `Series.mean()` over an empty series is `NaN`; `seriesMean`
  returns `Option ℚ` with `none` standing for that `NaN`.
-/

/-- A raw cell of the queried data frame, as Python sees it. -/
inductive PyCell where
  | vNone
  | vNaN
  | vStr (s : String)
deriving DecidableEq

/-- Python `str()` of a cell (`str(None) = "None"`, `str(nan) = "nan"`). -/
def pyStr : PyCell → String
  | PyCell.vNone => "None"
  | PyCell.vNaN => "nan"
  | PyCell.vStr s => s

/-- Substring occurrence: Python `sub in s` on character lists. -/
def containsSub (sub : List Char) : List Char → Bool
  | [] => sub.isEmpty
  | c :: t => sub.isPrefixOf (c :: t) || containsSub sub t

/-- Python `s.upper()` (ASCII case mapping, as in the data's fields). -/
def pyUpper (l : List Char) : List Char :=
  l.map Char.toUpper

/-- Python whitespace recognised by `int()` / `str.strip()`. -/
def isSpaceChar (c : Char) : Bool :=
  c == ' ' || c == '\t' || c == '\n' || c == '\r' || c == '\x0b' || c == '\x0c'

/-- Strip leading and trailing whitespace, as `int()` does. -/
def pyTrim (l : List Char) : List Char :=
  ((l.dropWhile isSpaceChar).reverse.dropWhile isSpaceChar).reverse

/-- Numeric value of a digit list, most significant first. -/
def digitsVal (l : List Char) : Nat :=
  l.foldl (fun acc c => acc * 10 + (c.toNat - 48)) 0

/-- Python `int(s)`: optional surrounding whitespace, optional sign, then
at least one ASCII digit; anything else raises (`none`). -/
def pyInt (l : List Char) : Option Int :=
  match pyTrim l with
  | [] => none
  | c :: rest =>
    if c = '-' then
      if rest ≠ [] ∧ rest.all Char.isDigit then some (-(digitsVal rest : Int)) else none
    else if c = '+' then
      if rest ≠ [] ∧ rest.all Char.isDigit then some ((digitsVal rest : Int)) else none
    else
      if (c :: rest).all Char.isDigit then some ((digitsVal (c :: rest) : Int)) else none

/-- Python `s.split(sep)` for a single-character separator. -/
def splitChar (sep : Char) : List Char → List (List Char)
  | [] => [[]]
  | c :: t =>
    if c == sep then [] :: splitChar sep t
    else
      match splitChar sep t with
      | [] => [[c]]
      | cur :: rest => (c :: cur) :: rest

/-- One row of the free-throw query:
`period, scoremargin, pctimestring, homedescription, visitordescription`. -/
structure ShotEvent where
  period : Int
  scoremargin : PyCell
  pctimestring : PyCell
  homedescription : PyCell
  visitordescription : PyCell
deriving DecidableEq

/-- The fields extracted from a row by the `try` block before the
win-probability calls: `is_make`, `margin`, `total_sec`, `period`. -/
structure RawParsed where
  is_make : Nat
  margin : Int
  total_sec : Int
  period : Int
deriving DecidableEq

/-- One entry of the `results` list (a row of `res_df`).  The stored
`weight` column is the deterministic function `weight` of `leverage`
and is kept out of the structure so that parsing stays executable. -/
structure ParsedShot where
  is_make : Nat
  leverage : ℚ
  period : Int
deriving DecidableEq

/-- Abstract numpy entropy source: `stream k` is the k-th Poisson draw,
`pos` the number of draws consumed so far. -/
structure RNG where
  stream : Nat → Nat
  pos : Nat

/-- Per-trial sums of a `trials × possessions` matrix of Poisson draws
(one `np.random.poisson(1.08, (trials, possessions)).sum(axis=1)` call),
together with the advanced generator. -/
def drawMatrix (g : RNG) (trials possessions : Nat) : (Nat → Nat) × RNG :=
  ((fun i => ((List.range possessions).map (fun j => g.stream (g.pos + i * possessions + j))).sum),
   ⟨g.stream, g.pos + trials * possessions⟩)

/-- Function `simulate_game_win_fast(margin, seconds_left, trials=10000)`
from src/app.py lines 85-91.  Returns the estimated win probability together
with the generator state after the call. -/
def simulate_game_win_fast (margin seconds_left : Int) (g : RNG)
    (trials : Nat := 10000) : ℚ × RNG :=
  if seconds_left ≤ 0 then
    ((if 0 < margin then 1 else if margin = 0 then 1/2 else 0), g)
  else
    let possessions := max 1 (seconds_left.toNat / 13)
    let ag := drawMatrix g trials possessions
    let bg := drawMatrix ag.2 trials possessions
    ((((List.range trials).countP
        (fun i => decide (0 < margin + (ag.1 i : Int) - (bg.1 i : Int)))) : ℚ) / (trials : ℚ),
     bg.2)

/-- Whether the uppercased margin string contains one of the sentinels
`'TIE'`, `'NONE'`, `'NAN'` (line 109). -/
def marginSentinel (m : List Char) : Bool :=
  ["TIE", "NONE", "NAN"].any (fun x => containsSub x.toList m)

/-- Lines 108-109: `m_str = str(row['scoremargin']).upper()`;
`margin = 0 if any(x in m_str for x in ['TIE','NONE','NAN']) else int(m_str)`.
`none` means `int` raised and the row is skipped. -/
def parseMargin (c : PyCell) : Option Int :=
  let m_str := pyUpper (pyStr c).toList
  if marginSentinel m_str then some 0 else pyInt m_str

/-- Lines 110-111: `t_parts = row['pctimestring'].split(':')`;
`total_sec = int(t_parts[0]) * 60 + int(t_parts[1])`.  A non-string cell
raises (`None.split`), a missing second part raises `IndexError`, a
non-numeric part makes `int` raise; all are `none` (row skipped). -/
def parseTime (c : PyCell) : Option Int :=
  match c with
  | PyCell.vStr s =>
    match (splitChar ':' s.toList)[0]?, (splitChar ':' s.toList)[1]? with
    | some p0, some p1 =>
      match pyInt p0, pyInt p1 with
      | some m, some sec => some (m * 60 + sec)
      | _, _ => none
    | _, _ => none
  | _ => none

/-- Line 112: `is_make = 0 if "MISS" in (str(home) + str(visitor)).upper() else 1`. -/
def parseIsMake (h v : PyCell) : Nat :=
  if containsSub "MISS".toList (pyUpper ((pyStr h).toList ++ (pyStr v).toList)) then 0 else 1

/-- The pure part of the loop body (lines 108-112): all field parsing.
`none` exactly when the `try` block raises before the simulation calls. -/
def parseFields (ev : ShotEvent) : Option RawParsed :=
  match parseMargin ev.scoremargin, parseTime ev.pctimestring with
  | some margin, some t =>
    some ⟨parseIsMake ev.homedescription ev.visitordescription, margin, t, ev.period⟩
  | _, _ => none

/-- The `results.append` record built from a successfully parsed row
(lines 113-116): `wp_make = sim(margin+1, total_sec)`,
`wp_miss = sim(margin, total_sec)`, `leverage = abs(wp_make - wp_miss)`. -/
def shotOf (g : RNG) (r : RawParsed) : ParsedShot :=
  ⟨r.is_make,
   |(simulate_game_win_fast (r.margin + 1) r.total_sec g).1 -
     (simulate_game_win_fast r.margin r.total_sec
       (simulate_game_win_fast (r.margin + 1) r.total_sec g).2).1|,
   r.period⟩

/-- Generator state after both simulation calls of one row. -/
def rngAfter (g : RNG) (r : RawParsed) : RNG :=
  (simulate_game_win_fast r.margin r.total_sec
    (simulate_game_win_fast (r.margin + 1) r.total_sec g).2).2

/-- The row loop of `get_processed_player_data` (lines 105-117): rows whose
parsing raises are skipped (`except: continue`), all others are appended. -/
def processEvents : RNG → List ShotEvent → List ParsedShot × RNG
  | g, [] => ([], g)
  | g, ev :: rest =>
    match parseFields ev with
    | none => processEvents g rest
    | some r =>
      ((shotOf g r) :: (processEvents (rngAfter g r) rest).1,
       (processEvents (rngAfter g r) rest).2)

/-- Function `get_processed_player_data` (lines 94-118): `None` when the query
returns no rows (line 103), otherwise the data frame of parsed rows
(possibly empty when every row was skipped). -/
def get_processed_player_data (g : RNG) (events : List ShotEvent) :
    Option (List ParsedShot) :=
  if events.isEmpty then none
  else some (processEvents g events).1

/-- The presentation gate of line 138:
`res_df is not None and not res_df.empty`. -/
def hasData : Option (List ParsedShot) → Bool
  | none => false
  | some l => !l.isEmpty

/-- pandas `Series.mean()`: `NaN` (here `none`) on an empty series. -/
def seriesMean (l : List ℚ) : Option ℚ :=
  if l.isEmpty then none else some (l.sum / (l.length : ℚ))

/-- Line 139: `raw_avg = res_df['is_make'].mean() * 100`. -/
def raw_avg (shots : List ParsedShot) : Option ℚ :=
  (seriesMean (shots.map (fun s => (s.is_make : ℚ)))).map (fun m => m * 100)

/-- Line 141:
`clutch_pct = res_df[res_df['leverage'] > 0.15]['is_make'].mean() * 100`.
`none` is the pandas `NaN` produced by the mean of an empty selection. -/
def clutch_pct (shots : List ParsedShot) : Option ℚ :=
  (seriesMean ((shots.filter (fun s => decide ((3:ℚ)/20 < s.leverage))).map
    (fun s => (s.is_make : ℚ)))).map (fun m => m * 100)

/-- The per-shot weight of line 116: `np.sqrt(leverage) + 0.05`. -/
noncomputable def weight (lev : ℚ) : ℝ :=
  Real.sqrt (lev : ℝ) + 0.05

/-- Total weight `res_df['weight'].sum()` (denominator of line 140). -/
noncomputable def totalWeight (shots : List ParsedShot) : ℝ :=
  (shots.map (fun s => weight s.leverage)).sum

/-- Line 140:
`pressure_avg = (res_df['is_make'] * res_df['weight']).sum() / res_df['weight'].sum() * 100`. -/
noncomputable def pressure_avg (shots : List ParsedShot) : ℝ :=
  ((shots.map (fun s => (s.is_make : ℝ) * weight s.leverage)).sum / totalWeight shots) * 100

/-- Line 150: `lambda x: str(int(x)) if x < 4 else "4+"`. -/
def quarterLabel (p : Int) : String :=
  if p < 4 then toString p else "4+"

/-- Group mean used by the chart (groups are nonempty by construction). -/
def meanQ (l : List ℚ) : ℚ :=
  l.sum / (l.length : ℚ)

/-- Lines 149-151: `final_chart = chart_data.groupby('Quarter')['is_make'].mean()`.
One `(label, make-rate)` pair per quarter label occurring among the shots;
the label order abstracts pandas' sorted group keys. -/
def final_chart (shots : List ParsedShot) : List (String × ℚ) :=
  ((shots.map (fun s => quarterLabel s.period)).dedup).map
    (fun q => (q, meanQ ((shots.filter (fun s => quarterLabel s.period == q)).map
      (fun s => (s.is_make : ℚ)))))

/-- A fixed concrete entropy stream (all draws 0), for concrete runs. -/
def g0 : RNG := ⟨fun _ => 0, 0⟩

/-- A valid buzzer-time row: margin "10", time "0:00", no descriptions. -/
def ev10 : ShotEvent :=
  ⟨1, PyCell.vStr "10", PyCell.vStr "0:00", PyCell.vNone, PyCell.vNone⟩

/-- A row whose margin raises in `int` and is therefore skipped. -/
def evBadMargin : ShotEvent :=
  ⟨1, PyCell.vStr "LEAD CHANGE", PyCell.vStr "0:30", PyCell.vNone, PyCell.vNone⟩

/-- A row with a NULL time cell (`None.split(':')` raises). -/
def evTimeNone : ShotEvent :=
  ⟨1, PyCell.vStr "2", PyCell.vNone, PyCell.vNone, PyCell.vNone⟩

/-- A row whose time string has two ':' separators (three parts). -/
def ev123 : ShotEvent :=
  ⟨1, PyCell.vStr "2", PyCell.vStr "1:2:3", PyCell.vNone, PyCell.vNone⟩

/-- A row whose minutes component parses to a negative integer. -/
def evNeg : ShotEvent :=
  ⟨1, PyCell.vStr "2", PyCell.vStr "-1:30", PyCell.vNone, PyCell.vNone⟩

/-- The spec's per-period example: periods [1,1,2,3,4,5], makes [1,0,1,1,0,1]. -/
def exampleShots : List ParsedShot :=
  [⟨1, 0, 1⟩, ⟨0, 0, 1⟩, ⟨1, 0, 2⟩, ⟨1, 0, 3⟩, ⟨0, 0, 4⟩, ⟨1, 0, 5⟩]


theorem processEvents_cons_none {g : RNG} {ev : ShotEvent} {rest : List ShotEvent}
    (h : parseFields ev = none) :
    processEvents g (ev :: rest) = processEvents g rest := by
  simp [processEvents, h]

theorem processEvents_cons_some {g : RNG} {ev : ShotEvent} {rest : List ShotEvent}
    {r : RawParsed} (h : parseFields ev = some r) :
    processEvents g (ev :: rest) =
      ((shotOf g r) :: (processEvents (rngAfter g r) rest).1,
       (processEvents (rngAfter g r) rest).2) := by
  simp [processEvents, h]

/-- The rows surviving the loop are exactly the rows whose parsing
succeeds, in order, with the parsed outcome and period. -/
theorem processEvents_map_spec (events : List ShotEvent) : ∀ g : RNG,
    ((processEvents g events).1).map (fun s => (s.is_make, s.period)) =
      (events.filterMap parseFields).map (fun r => (r.is_make, r.period)) := by
  induction events with
  | nil => intro g; simp [processEvents]
  | cons ev rest ih =>
    intro g
    cases h : parseFields ev with
    | none => simp [processEvents_cons_none h, List.filterMap_cons, h, ih g]
    | some r =>
      simp [processEvents_cons_some h, List.filterMap_cons, h, ih (rngAfter g r), shotOf]

/-- If every row fails to parse, the result list is empty. -/
theorem processEvents_all_fail {events : List ShotEvent}
    (h : ∀ ev ∈ events, parseFields ev = none) (g : RNG) :
    (processEvents g events).1 = [] := by
  induction events with
  | nil => simp [processEvents]
  | cons ev rest ih =>
    rw [processEvents_cons_none (h ev (List.mem_cons_self ev rest))]
    exact ih (fun e he => h e (List.mem_cons_of_mem ev he))

/-- `containsSub sub l` is exactly substring occurrence. -/
theorem containsSub_iff (sub : List Char) : ∀ l : List Char,
    containsSub sub l = true ↔ ∃ a b : List Char, l = a ++ sub ++ b
  | [] => by
    constructor
    · intro h
      have hsub : sub = [] := by
        simpa [containsSub, List.isEmpty_iff] using h
      exact ⟨[], [], by simp [hsub]⟩
    · rintro ⟨a, b, h⟩
      have h2 := h.symm
      rw [List.append_eq_nil, List.append_eq_nil] at h2
      simp [containsSub, h2.1.2]
  | c :: t => by
    rw [containsSub, Bool.or_eq_true]
    constructor
    · rintro (h | h)
      · rcases List.isPrefixOf_iff_prefix.mp h with ⟨b, hb⟩
        exact ⟨[], b, by simp [hb]⟩
      · rcases (containsSub_iff sub t).mp h with ⟨a, b, hab⟩
        exact ⟨c :: a, b, by simp [hab]⟩
    · rintro ⟨a, b, hab⟩
      cases a with
      | nil =>
        left
        exact List.isPrefixOf_iff_prefix.mpr ⟨b, by simpa using hab.symm⟩
      | cons x a2 =>
        right
        have hsimp := hab
        simp at hsimp
        exact (containsSub_iff sub t).mpr
          ⟨a2, b, by rw [List.append_assoc]; exact hsimp.2⟩

/-- The weight is strictly positive for every leverage value. -/
theorem weight_pos (lev : ℚ) : 0 < weight lev := by
  have h := Real.sqrt_nonneg (lev : ℝ)
  unfold weight
  nlinarith

/-- The total weight of a nonempty shot list is strictly positive. -/
theorem totalWeight_pos {shots : List ParsedShot} (h : shots ≠ []) :
    0 < totalWeight shots := by
  apply List.sum_pos
  · intro x hx
    rcases List.mem_map.mp hx with ⟨s, _, rfl⟩
    exact weight_pos s.leverage
  · simpa [List.map_eq_nil_iff] using h

/-- A row is skipped exactly when margin or time parsing raised. -/
theorem parseFields_none_iff (ev : ShotEvent) :
    parseFields ev = none ↔
      parseMargin ev.scoremargin = none ∨ parseTime ev.pctimestring = none := by
  unfold parseFields
  cases hm : parseMargin ev.scoremargin <;> cases ht : parseTime ev.pctimestring <;> simp

/-- C1: for every integer margin and secondsRemaining ≤ 0,
`simulate_game_win_fast` returns exactly 1 when margin > 0, exactly 1/2
when margin = 0 and exactly 0 when margin < 0, and returns the generator
unchanged (no randomness is consumed), for every trial count. -/
theorem C1_buzzer_deterministic (margin seconds_left : Int) (g : RNG) (trials : Nat)
    (h : seconds_left ≤ 0) :
    (0 < margin → simulate_game_win_fast margin seconds_left g trials = (1, g)) ∧
    (margin = 0 → simulate_game_win_fast margin seconds_left g trials = (1/2, g)) ∧
    (margin < 0 → simulate_game_win_fast margin seconds_left g trials = (0, g)) := by
  unfold simulate_game_win_fast
  rw [if_pos h]
  refine ⟨fun hm => ?_, fun hm => ?_, fun hm => ?_⟩
  · rw [if_pos hm]
  · rw [if_neg (by omega), if_pos hm]
  · rw [if_neg (by omega), if_neg (by omega)]

theorem C1_witness :
    simulate_game_win_fast 3 0 g0 10000 = (1, g0) ∧
    simulate_game_win_fast 0 0 g0 10000 = (1/2, g0) ∧
    simulate_game_win_fast (-2) 0 g0 10000 = (0, g0) :=
  ⟨(C1_buzzer_deterministic 3 0 g0 10000 (by norm_num)).1 (by norm_num),
   (C1_buzzer_deterministic 0 0 g0 10000 (by norm_num)).2.1 rfl,
   (C1_buzzer_deterministic (-2) 0 g0 10000 (by norm_num)).2.2 (by norm_num)⟩

/-- C2 counterexample: a nonempty set of successfully parsed shots, all
with leverage ≤ 0.15, for which the reported `clutch_pct` is NOT 0: the
mean over the empty clutch subset is pandas NaN (`none`), not `some 0`. -/
theorem C2_counterexample :
    (processEvents g0 [ev10]).1 ≠ [] ∧
    (∀ s ∈ (processEvents g0 [ev10]).1, s.leverage ≤ 3/20) ∧
    clutch_pct (processEvents g0 [ev10]).1 ≠ some 0 := by
  have h : (processEvents g0 [ev10]).1 = [⟨1, 0, 1⟩] := by
    have hp : parseFields ev10 = some ⟨1, 10, 0, 1⟩ := by decide
    simp [processEvents, hp, shotOf, simulate_game_win_fast]
  rw [h]
  refine ⟨by simp, by norm_num, ?_⟩
  have hcl : clutch_pct [(⟨1, 0, 1⟩ : ParsedShot)] = none := by
    norm_num [clutch_pct, seriesMean, List.filter]
  rw [hcl]
  simp

/-- C2 (amended): for every nonempty collection of parsed shots in which
no shot has leverage > 0.15, the clutch selection is empty and
`clutch_pct` is the pandas NaN (`none`) rather than 0; no error is raised
(the computation is total) and the other metrics are still produced. -/
theorem C2_empty_clutch_is_nan (shots : List ParsedShot) (hne : shots ≠ [])
    (hlev : ∀ s ∈ shots, s.leverage ≤ 3/20) :
    clutch_pct shots = none ∧ raw_avg shots ≠ none := by
  have hfil : shots.filter (fun s => decide ((3:ℚ)/20 < s.leverage)) = [] := by
    rw [List.filter_eq_nil_iff]
    intro s hs
    simpa using not_lt.mpr (hlev s hs)
  constructor
  · simp [clutch_pct, hfil, seriesMean]
  · simp [raw_avg, seriesMean, List.isEmpty_iff, List.map_eq_nil_iff, hne]

theorem C2_witness :
    clutch_pct [⟨1, 0, 1⟩] = none ∧ raw_avg [⟨1, 0, 1⟩] ≠ none :=
  C2_empty_clutch_is_nan [⟨1, 0, 1⟩] (by simp) (by norm_num)

/-- C3 counterexample: with a single period-1 shot, the per-period
breakdown contains only the "1" bucket; the empty "2" bucket is omitted
entirely instead of being reported with rate 0 as the claim states. -/
theorem C3_counterexample :
    final_chart [⟨1, 0, 1⟩] = [("1", 1)] ∧
    (final_chart [⟨1, 0, 1⟩]).lookup "2" = none := by
  have hd : (([⟨1, 0, 1⟩] : List ParsedShot).map (fun s => quarterLabel s.period)).dedup
      = ["1"] := by decide
  have hf : ([⟨1, 0, 1⟩] : List ParsedShot).filter (fun s => quarterLabel s.period == "1")
      = [⟨1, 0, 1⟩] := by decide
  have h : final_chart [⟨1, 0, 1⟩] = [("1", 1)] := by
    rw [final_chart, hd]
    simp [hf, meanQ]
  exact ⟨h, by rw [h]; rfl⟩

/-- C3 (amended): the breakdown groups parsed shots by period with every
period ≥ 4 merged into the "4+" bucket and reports the make rate per
bucket, but a bucket with no shots is omitted rather than reported as 0;
periods [1,1,2,3,4,5] with makes [1,0,1,1,0,1] yield
{"1": 0.5, "2": 1.0, "3": 1.0, "4+": 0.5}, and every reported bucket
label comes from some shot. -/
theorem C3_per_period_buckets :
    (∀ p : Int, 4 ≤ p → quarterLabel p = "4+") ∧
    (∀ p : Int, p < 4 → quarterLabel p = toString p) ∧
    final_chart exampleShots = [("1", 1/2), ("2", 1), ("3", 1), ("4+", 1/2)] ∧
    (∀ (shots : List ParsedShot) (q : String),
      q ∈ (final_chart shots).map Prod.fst → ∃ s ∈ shots, quarterLabel s.period = q) := by
  refine ⟨fun p hp => by unfold quarterLabel; rw [if_neg (by omega)],
    fun p hp => by unfold quarterLabel; rw [if_pos hp], ?_, ?_⟩
  · have h1 : (exampleShots.map (fun s => quarterLabel s.period)).dedup
        = ["1", "2", "3", "4+"] := by decide
    have h2 : exampleShots.filter (fun s => quarterLabel s.period == "1")
        = [⟨1, 0, 1⟩, ⟨0, 0, 1⟩] := by decide
    have h3 : exampleShots.filter (fun s => quarterLabel s.period == "2")
        = [⟨1, 0, 2⟩] := by decide
    have h4 : exampleShots.filter (fun s => quarterLabel s.period == "3")
        = [⟨1, 0, 3⟩] := by decide
    have h5 : exampleShots.filter (fun s => quarterLabel s.period == "4+")
        = [⟨0, 0, 4⟩, ⟨1, 0, 5⟩] := by decide
    rw [final_chart, h1]
    simp [h2, h3, h4, h5, meanQ]
  · intro shots q hq
    simp only [final_chart, List.map_map] at hq
    have hq2 : q ∈ (shots.map (fun s => quarterLabel s.period)).dedup := by
      simpa using hq
    rcases List.mem_map.mp (List.mem_dedup.mp hq2) with ⟨s, hs, rfl⟩
    exact ⟨s, hs, rfl⟩

theorem C3_witness :
    quarterLabel 5 = "4+" ∧ ∃ s ∈ exampleShots, quarterLabel s.period = "4+" :=
  ⟨C3_per_period_buckets.1 5 (by norm_num),
   C3_per_period_buckets.2.2.2 exampleShots "4+" (by decide)⟩

/-- C4: aggregation over an empty event sequence returns `None`, and over
a sequence in which every event fails parsing it returns an empty frame;
neither is a computed summary or an exception, and the presentation gate
`res_df is not None and not res_df.empty` treats both identically as the
no-data outcome. -/
theorem C4_no_data_outcome (g : RNG) (events : List ShotEvent)
    (h : ∀ ev ∈ events, parseFields ev = none) :
    get_processed_player_data g [] = none ∧
    hasData (get_processed_player_data g []) = false ∧
    hasData (get_processed_player_data g events) = false := by
  refine ⟨rfl, rfl, ?_⟩
  cases events with
  | nil => rfl
  | cons e rest =>
    rw [get_processed_player_data, if_neg (by simp)]
    simp [hasData, processEvents_all_fail h g]

theorem C4_witness :
    hasData (get_processed_player_data g0 [evBadMargin]) = false :=
  (C4_no_data_outcome g0 [evBadMargin] (by decide)).2.2

/-- C5 counterexample: the time string "1:2:3" has the wrong number of
':' separators, yet the event is NOT dropped: parsing succeeds with
total_sec = 1*60+2 = 62 and the third part silently ignored. -/
theorem C5_counterexample :
    ev123.pctimestring = PyCell.vStr "1:2:3" ∧
    parseFields ev123 = some ⟨1, 2, 62, 1⟩ :=
  ⟨rfl, by decide⟩

/-- C5 (amended): every event whose margin or time parsing fails is
dropped silently and the failure does not propagate — the surviving rows
are exactly the parse successes, in order.  Time parsing fails for a
string with fewer than two ':'-separated parts or a non-numeric first or
second part, but a string with extra ':' separators parses successfully
using its first two parts. -/
theorem C5_skip_failed_events :
    (∀ (g : RNG) (events : List ShotEvent),
      ((processEvents g events).1).map (fun s => (s.is_make, s.period)) =
        (events.filterMap parseFields).map (fun r => (r.is_make, r.period))) ∧
    parseTime (PyCell.vStr "130") = none ∧
    parseTime (PyCell.vStr "1O:30") = none ∧
    parseTime (PyCell.vStr "12:3O") = none ∧
    parseTime (PyCell.vStr "1:2:3") = some 62 ∧
    (∀ ev : ShotEvent, parseTime ev.pctimestring = none → parseFields ev = none) ∧
    (∀ ev : ShotEvent, parseMargin ev.scoremargin = none → parseFields ev = none) := by
  refine ⟨fun g events => processEvents_map_spec events g,
    by decide, by decide, by decide, by decide,
    fun ev h => (parseFields_none_iff ev).mpr (Or.inr h),
    fun ev h => (parseFields_none_iff ev).mpr (Or.inl h)⟩

theorem C5_witness :
    parseFields ⟨1, PyCell.vStr "2", PyCell.vStr "130", PyCell.vNone, PyCell.vNone⟩ = none :=
  C5_skip_failed_events.2.2.2.2.2.1 _ (by decide)

/-- C6: marginAtShot is 0 whenever the uppercased string form of the raw
score-margin cell contains one of the literal substrings "TIE", "NONE",
"NAN" (the sentinel test is exactly substring occurrence), and is
otherwise the signed-integer parse of that string; "TIE" parses to 0, and
when the integer parse raises the event is skipped. -/
theorem C6_margin_parsing :
    (∀ m : List Char, marginSentinel m = true ↔
      (∃ a b, m = a ++ "TIE".toList ++ b) ∨ (∃ a b, m = a ++ "NONE".toList ++ b) ∨
      (∃ a b, m = a ++ "NAN".toList ++ b)) ∧
    (∀ c : PyCell, marginSentinel (pyUpper (pyStr c).toList) = true → parseMargin c = some 0) ∧
    (∀ c : PyCell, marginSentinel (pyUpper (pyStr c).toList) = false →
      parseMargin c = pyInt (pyUpper (pyStr c).toList)) ∧
    parseMargin (PyCell.vStr "TIE") = some 0 ∧
    (∀ ev : ShotEvent, parseMargin ev.scoremargin = none → parseFields ev = none) := by
  refine ⟨?_, ?_, ?_, by decide,
    fun ev h => (parseFields_none_iff ev).mpr (Or.inl h)⟩
  · intro m
    simp [marginSentinel, containsSub_iff]
  · intro c h
    rw [parseMargin]
    simp only [h, if_pos]
  · intro c h
    rw [parseMargin]
    simp only [h, Bool.false_eq_true, if_false]

theorem C6_witness :
    parseMargin PyCell.vNone = some 0 ∧ parseFields evBadMargin = none :=
  ⟨C6_margin_parsing.2.1 PyCell.vNone (by decide),
   C6_margin_parsing.2.2.2.2 evBadMargin (by decide)⟩

/-- Unfolding bridge: the outcome is a miss exactly when the combined
uppercased description contains the marker. -/
theorem parseIsMake_eq_zero_iff (h v : PyCell) :
    parseIsMake h v = 0 ↔
      containsSub "MISS".toList (pyUpper ((pyStr h).toList ++ (pyStr v).toList)) = true := by
  unfold parseIsMake
  split
  · simp_all
  · simp_all

/-- C7: the parsed outcome is a miss (is_make = 0) iff the uppercased
concatenation of the home and visitor description fields contains the
"MISS" marker as a substring; descriptions "MISS Jordan Free Throw"
parse to a miss. -/
theorem C7_miss_marker :
    (∀ h v : PyCell, parseIsMake h v = 0 ↔
      ∃ a b, pyUpper ((pyStr h).toList ++ (pyStr v).toList) = a ++ "MISS".toList ++ b) ∧
    (∀ (ev : ShotEvent) (r : RawParsed), parseFields ev = some r →
      r.is_make = parseIsMake ev.homedescription ev.visitordescription) ∧
    parseIsMake (PyCell.vStr "MISS Jordan Free Throw") PyCell.vNone = 0 := by
  refine ⟨?_, ?_, by decide⟩
  · intro h v
    rw [parseIsMake_eq_zero_iff]
    exact containsSub_iff _ _
  · intro ev r h
    rw [parseFields] at h
    cases hm : parseMargin ev.scoremargin with
    | none => rw [hm] at h; simp at h
    | some mv =>
      cases ht : parseTime ev.pctimestring with
      | none => rw [hm, ht] at h; simp at h
      | some tv =>
        rw [hm, ht] at h
        simp only [Option.some.injEq] at h
        rw [← h]

theorem C7_witness :
    (⟨1, 10, 0, 1⟩ : RawParsed).is_make
      = parseIsMake ev10.homedescription ev10.visitordescription :=
  C7_miss_marker.2.1 ev10 ⟨1, 10, 0, 1⟩ (by decide)

/-- C8: for every leverage in [0,1] the per-shot weight equals
sqrt(leverage) + 0.05 and is at least 0.05; the weight is strictly
monotone in leverage; and the total weight of every nonempty parsed shot
set is nonzero, so the pressure-adjusted division is well defined. -/
theorem C8_weight_properties :
    (∀ lev : ℚ, 0 ≤ lev → lev ≤ 1 →
      weight lev = Real.sqrt (lev : ℝ) + 0.05 ∧ (0.05 : ℝ) ≤ weight lev) ∧
    (∀ lev1 lev2 : ℚ, 0 ≤ lev1 → lev1 < lev2 → lev2 ≤ 1 → weight lev1 < weight lev2) ∧
    (∀ shots : List ParsedShot, shots ≠ [] → totalWeight shots ≠ 0) := by
  refine ⟨fun lev h0 h1 => ⟨rfl, ?_⟩, fun lev1 lev2 h0 hlt h1 => ?_, fun shots hne => ?_⟩
  · have hs := Real.sqrt_nonneg (lev : ℝ)
    unfold weight
    linarith
  · unfold weight
    have hs : Real.sqrt (lev1 : ℝ) < Real.sqrt (lev2 : ℝ) :=
      Real.sqrt_lt_sqrt (by exact_mod_cast h0) (by exact_mod_cast hlt)
    linarith
  · exact ne_of_gt (totalWeight_pos hne)

theorem C8_witness :
    (0.05 : ℝ) ≤ weight (1/4) ∧ weight 0 < weight (1/4) ∧
    totalWeight [⟨1, 0, 1⟩] ≠ 0 :=
  ⟨(C8_weight_properties.1 (1/4) (by norm_num) (by norm_num)).2,
   C8_weight_properties.2.1 0 (1/4) (by norm_num) (by norm_num) (by norm_num),
   C8_weight_properties.2.2 [⟨1, 0, 1⟩] (by simp)⟩

/-- C9 counterexample: the event with time string "-1:30" parses
successfully (it is not skipped) with secondsRemaining = -30 < 0. -/
theorem C9_counterexample :
    parseFields evNeg = some ⟨1, 2, -30, 1⟩ ∧ ((-30 : Int) < 0) :=
  ⟨by decide, by norm_num⟩

/-- C9 (amended): every successfully parsed event carries
secondsRemaining = minutes*60 + seconds as parsed from its time string;
this is ≥ 0 whenever both parsed components are ≥ 0, but a component may
parse as a negative integer, making secondsRemaining negative. -/
theorem C9_time_nonneg :
    (∀ (ev : ShotEvent) (r : RawParsed), parseFields ev = some r →
      parseTime ev.pctimestring = some r.total_sec) ∧
    (∀ (s : String) (p0 p1 : List Char) (m sec : Int),
      (splitChar ':' s.toList)[0]? = some p0 →
      (splitChar ':' s.toList)[1]? = some p1 →
      pyInt p0 = some m → pyInt p1 = some sec →
      parseTime (PyCell.vStr s) = some (m * 60 + sec) ∧
      (0 ≤ m → 0 ≤ sec → 0 ≤ m * 60 + sec)) := by
  constructor
  · intro ev r h
    rw [parseFields] at h
    cases hm : parseMargin ev.scoremargin with
    | none => rw [hm] at h; simp at h
    | some mv =>
      cases ht : parseTime ev.pctimestring with
      | none => rw [hm, ht] at h; simp at h
      | some tv =>
        rw [hm, ht] at h
        simp only [Option.some.injEq] at h
        rw [← h]
  · intro s p0 p1 m sec h0 h1 hm hsec
    refine ⟨?_, fun hm0 hsec0 => by omega⟩
    simp only [String.toList] at h0 h1
    simp [parseTime, h0, h1, hm, hsec]

theorem C9_witness :
    parseTime (PyCell.vStr "1:30") = some (1 * 60 + 30) ∧ (0 ≤ (1:Int) * 60 + 30) := by
  have h := C9_time_nonneg.2 "1:30" "1".toList "30".toList 1 30
    (by decide) (by decide) (by decide) (by decide)
  exact ⟨h.1, h.2 (by norm_num) (by norm_num)⟩

/-- C10: when both description cells are absent (None) or null (NaN) the
outcome parse still succeeds and classifies the event as a make, outcome
extraction is total (always 0 or 1), and an event is only ever skipped
because margin or time parsing failed. -/
theorem C10_null_descriptions :
    parseIsMake PyCell.vNone PyCell.vNone = 1 ∧
    parseIsMake PyCell.vNaN PyCell.vNaN = 1 ∧
    (∀ h v : PyCell, parseIsMake h v = 0 ∨ parseIsMake h v = 1) ∧
    (∀ ev : ShotEvent, parseFields ev = none →
      parseMargin ev.scoremargin = none ∨ parseTime ev.pctimestring = none) := by
  refine ⟨by decide, by decide, fun h v => ?_,
    fun ev h => (parseFields_none_iff ev).mp h⟩
  unfold parseIsMake
  split
  · exact Or.inl rfl
  · exact Or.inr rfl

theorem C10_witness :
    parseMargin evTimeNone.scoremargin = none ∨ parseTime evTimeNone.pctimestring = none :=
  C10_null_descriptions.2.2.2 evTimeNone (by decide)
